import Mathlib

/-!
# Kawakaze backend: shallow embedding and verification

This file embeds the parts of the kawakaze backend (a FreeBSD-jail container
engine) that the specification claims speak about, and proves or refutes each
claim against the embedding.

Conventions used throughout:

* Rust `Result<T, E>` is modelled as `Except E T`; a Rust method on `&mut self`
  returning `Result<T, E>` is modelled as a function returning
  `Except E T × State` (the state survives an error, as in Rust).
* `HashMap<K, V>` is modelled as an association list `List (K × V)`;
  `HashMap::remove` is modelled as filtering out the key (a hash map holds each
  key at most once, so filtering and single-removal agree), `HashMap::insert`
  as cons-after-filter.
* `HashSet<T>` is modelled as a `List T` with membership.
* Byte buffers are modelled as `List Nat` with each element `< 256`.
* Rust string functions (`split`, `trim`, `splitn`, ...) are modelled in the
  `RStr` namespace by structurally recursive functions over `String.data`,
  so that concrete instances evaluate inside the kernel.  The models cover
  the ASCII range exactly; Unicode-specific behavior is modelled only where
  a claim depends on it (`char::is_alphanumeric`, see `rustIsAlphanumeric`).
* Results of external effects (syscalls, SQLite, zfs, file writes) are supplied
  as explicit inputs (an `Env` of `Except` outcomes), mirroring the call sites.
* Error messages in the Rust source are built with `format!`; the embedding
  keeps the error constructors and codes exact but abbreviates message texts,
  which no claim depends on.
-/

deriving instance DecidableEq for Except

namespace Kawakaze

/-! ## Models of the Rust string functions used by the embedded code -/

namespace RStr

/-- Rust `str::split(sep)` on the character list: splits at every separator,
keeping empty pieces. -/
def splitChL (sep : Char) : List Char → List (List Char)
  | [] => [[]]
  | c :: cs =>
    let r := splitChL sep cs
    if c = sep then [] :: r
    else
      match r with
      | [] => [[c]]
      | w :: ws => (c :: w) :: ws

/-- Rust `str::split(sep)` with a single-character separator. -/
def splitCh (sep : Char) (s : String) : List String :=
  (splitChL sep s.data).map String.mk

/-- Whitespace per Lean's `Char.isWhitespace` (space, tab, CR, LF) — the ASCII
fragment of Rust `char::is_whitespace`, which suffices for every claim. -/
def isWs (c : Char) : Bool := c.isWhitespace

/-- Rust `str::split_whitespace` on the character list: maximal runs of
non-whitespace characters (`cur` accumulates the current word, reversed). -/
def splitWsAux (cur : List Char) : List Char → List (List Char)
  | [] => if cur = [] then [] else [cur.reverse]
  | c :: cs =>
    if isWs c then
      if cur = [] then splitWsAux [] cs else cur.reverse :: splitWsAux [] cs
    else splitWsAux (c :: cur) cs

/-- Rust `str::split_whitespace`. -/
def splitWhitespace (s : String) : List String :=
  (splitWsAux [] s.data).map String.mk

/-- Rust `str::trim`. -/
def trim (s : String) : String :=
  String.mk (((s.data.dropWhile isWs).reverse.dropWhile isWs).reverse)

/-- Rust `str::starts_with`. -/
def startsWith (s pre : String) : Bool :=
  pre.data.isPrefixOf s.data

/-- Rust `str::ends_with`. -/
def endsWith (s suf : String) : Bool :=
  suf.data.isSuffixOf s.data

/-- Substring search: does `pat` occur as a prefix at any position of the
list? -/
def containsAux (pat : List Char) : List Char → Bool
  | [] => pat.isEmpty
  | c :: cs => pat.isPrefixOf (c :: cs) || containsAux pat cs

/-- Rust `str::contains` (substring containment). -/
def containsSub (s sub : String) : Bool :=
  containsAux sub.data s.data

/-- Rust `str::to_uppercase`, ASCII fragment (instruction keywords and the
strings compared against them are ASCII). -/
def toUpper (s : String) : String :=
  String.mk (s.data.map Char.toUpper)

/-- Rust `str::splitn(2, sep)`: the piece before the first separator, and
(when a separator occurs) everything after it. -/
def splitn2L (sep : Char) : List Char → List Char × Option (List Char)
  | [] => ([], none)
  | c :: cs =>
    if c = sep then ([], some cs)
    else
      let (h, t) := splitn2L sep cs
      (c :: h, t)

/-- Rust `str::splitn(2, sep)` wrapped on strings. -/
def splitn2 (sep : Char) (s : String) : String × Option String :=
  let (h, t) := splitn2L sep s.data
  (String.mk h, t.map String.mk)

/-- Rust `str::parse::<u16>`: optional leading `+`, then one or more ASCII
digits, value at most `65535`. -/
def parseU16 (s : String) : Option Nat :=
  let ds := match s.data with
            | '+' :: rest => rest
            | l => l
  if ds = [] ∨ ¬ ds.all Char.isDigit then none
  else
    let v := ds.foldl (fun acc c => acc * 10 + (c.toNat - 48)) 0
    if v ≤ 65535 then some v else none

/-- One step of Rust `str::replace` with a non-empty pattern, on fuel (the
fuel is the input length; each step consumes at least one character).  With
an empty pattern this model is the identity; the embedded code only ever
builds patterns starting with `$`. -/
def replaceFuel (pat rep : List Char) : Nat → List Char → List Char
  | 0, s => s
  | _ + 1, [] => []
  | n + 1, c :: cs =>
    if pat ≠ [] ∧ pat.isPrefixOf (c :: cs) then
      rep ++ replaceFuel pat rep n ((c :: cs).drop pat.length)
    else
      c :: replaceFuel pat rep n cs

/-- Rust `str::replace` (non-overlapping, left to right). -/
def replaceStr (s pat rep : String) : String :=
  String.mk (replaceFuel pat.data rep.data s.data.length s.data)

/-- Rust `str::is_empty`. -/
def isEmptyStr (s : String) : Bool := s.data.isEmpty

end RStr

/-! ## Wire framing (`src/backend/src/server.rs`, `JsonCodec`)

The codec is the `tokio_util` `Decoder`/`Encoder` pair from `server.rs`.
`serde_json::to_vec`/`from_slice` (the JSON byte serialization itself) is
treated as the payload: `encode` maps payload bytes to a frame, `decode` maps
a buffer to the first frame's payload bytes plus the remaining buffer. -/

/-- Big-endian bytes of `n` as a Rust `u32` (`u32::to_be_bytes`); the
`as u32` cast truncates modulo `2 ^ 32`. -/
def toBytesBE4 (n : Nat) : List Nat :=
  [n % 2 ^ 32 / 2 ^ 24, n % 2 ^ 24 / 2 ^ 16, n % 2 ^ 16 / 2 ^ 8, n % 2 ^ 8]

/-- `u32::from_be_bytes`. -/
def fromBytesBE4 (b0 b1 b2 b3 : Nat) : Nat :=
  ((b0 * 256 + b1) * 256 + b2) * 256 + b3

namespace JsonCodec

/-- `JsonCodec::encode`: write the 4-byte big-endian length prefix, then the
JSON payload bytes. -/
def encode (payload : List Nat) : List Nat :=
  toBytesBE4 payload.length ++ payload

/-- `JsonCodec::decode`: need at least 4 bytes; read the big-endian length;
if the buffer holds the full message, split off the payload and keep the
rest of the buffer. -/
def decode (src : List Nat) : Option (List Nat × List Nat) :=
  match src with
  | b0 :: b1 :: b2 :: b3 :: rest =>
    let len := fromBytesBE4 b0 b1 b2 b3
    if rest.length < len then none
    else some (rest.take len, rest.drop len)
  | _ => none

end JsonCodec

/-! ## Default-interface detection
(`src/backend/src/networking.rs`, `NetworkManager::get_default_interface`)

The function runs `netstat -nr -f inet` and scans its stdout line by line;
the embedding takes the list of stdout lines as input (`str::lines`). -/

/-- The body of `get_default_interface`'s per-line scan: a line starting with
`default` or `0.0.0.0` yields its whitespace-field at index 7 provided it has
at least 8 fields; any other line (including a short default line) yields
nothing and the scan continues. -/
def defaultIfaceOfLine (line : String) : Option String :=
  if RStr.startsWith line "default" || RStr.startsWith line "0.0.0.0" then
    let parts := RStr.splitWhitespace line
    if 8 ≤ parts.length then parts[7]? else none
  else none

/-- `NetworkManager::get_default_interface` on the captured stdout lines:
return the first line's hit, if any. -/
def getDefaultInterface (lines : List String) : Option String :=
  lines.findSome? defaultIfaceOfLine

/-! ## IP allocation (`src/backend/src/networking.rs`, `IpAllocator`)

`allocated_ips: HashSet<Ipv4Addr>` is modelled as a list with membership;
`save_state` writes the allocation file, so its outcome is an explicit input
(the `?` after `save_state()` propagates its error after the set was already
mutated). -/

/-- An IPv4 address as four octets. -/
structure Ipv4 where
  a : Nat
  b : Nat
  c : Nat
  d : Nat
deriving DecidableEq, Repr

/-- `networking::NetworkError`. -/
inductive NetworkError
  | bridgeCreationFailed (msg : String)
  | bridgeAlreadyExists
  | bridgeNotFound
  | epairCreationFailed (msg : String)
  | epairAttachmentFailed (msg : String)
  | ipAllocationFailed (msg : String)
  | ipExhausted
  | pfError (msg : String)
  | ioError (msg : String)
deriving DecidableEq, Repr

/-- `IpAllocator`: the allocated set plus the cursor `next_ip` (an offset into
the last two octets of `10.11.0.0/16`). -/
structure IpAllocator where
  allocatedIps : List Ipv4
  nextIp : Nat
deriving DecidableEq, Repr

/-- The address `10.11.<offset / 256>.<offset % 256>` (the `as u8` casts in
`offset_to_ip` truncate modulo 256). -/
def ipOfOffset (offset : Nat) : Ipv4 :=
  ⟨10, 11, offset / 256 % 256, offset % 256⟩

/-- `IpAllocator::offset_to_ip`: offsets outside `2..=65534` are rejected
with `IpAllocationFailed`. -/
def offsetToIp (offset : Nat) : Except NetworkError Ipv4 :=
  if offset > 65534 ∨ offset < 2 then
    .error (.ipAllocationFailed "Invalid IP offset")
  else .ok (ipOfOffset offset)

/-- One of the two `for offset in a..b` scans inside `IpAllocator::allocate`:
starting at `start` for `n` consecutive offsets, convert each offset
(propagating `offset_to_ip` errors), skip allocated addresses, and stop at the
first free one, returning it with its offset. -/
def scanFree (allocated : List Ipv4) : Nat → Nat → Except NetworkError (Option (Nat × Ipv4))
  | _, 0 => .ok none
  | start, n + 1 =>
    match offsetToIp start with
    | .error e => .error e
    | .ok ip =>
      if ip ∈ allocated then scanFree allocated (start + 1) n
      else .ok (some (start, ip))

/-- `IpAllocator::allocate`: scan `next_ip..65534`; on success insert the
address, advance the cursor past it and persist; otherwise wrap and scan
`2..next_ip` (without moving the cursor); fail with `IpExhausted` when both
scans find nothing.  `saveRes` is the outcome of `save_state`. -/
def IpAllocator.allocate (saveRes : Except NetworkError Unit) (st : IpAllocator) :
    Except NetworkError Ipv4 × IpAllocator :=
  match scanFree st.allocatedIps st.nextIp (65534 - st.nextIp) with
  | .error e => (.error e, st)
  | .ok (some (offset, ip)) =>
    let st2 : IpAllocator := ⟨ip :: st.allocatedIps, offset + 1⟩
    match saveRes with
    | .error e => (.error e, st2)
    | .ok _ => (.ok ip, st2)
  | .ok none =>
    match scanFree st.allocatedIps 2 (st.nextIp - 2) with
    | .error e => (.error e, st)
    | .ok (some (_, ip)) =>
      let st2 : IpAllocator := ⟨ip :: st.allocatedIps, st.nextIp⟩
      match saveRes with
      | .error e => (.error e, st2)
      | .ok _ => (.ok ip, st2)
    | .ok none => (.error .ipExhausted, st)

/-! ## Dockerfile parsing (`src/backend/src/image_builder.rs`,
`ImageBuilder::parse_dockerfile` / `parse_instruction`)

The builder state enters parsing only through `self.build_args`, modelled as
an explicit association list.  The `DockerfileInstruction` variants follow the
constructions in `parse_instruction` (which also builds a `Bootstrap` variant
on top of the `image.rs` enum). -/

/-- Parsed Dockerfile instructions, as constructed by `parse_instruction`. -/
inductive DockerfileInstruction
  | From (image : String)
  | bootstrap (version architecture mirror : Option String)
  | run (cmd : String)
  | copy (fromSrc : Option String) (src dest : String)
  | add (src dest : String)
  | workDir (path : String)
  | env (pairs : List (String × String))
  | expose (ports : List Nat)
  | user (name : String)
  | volume (vols : List String)
  | cmd (parts : List String)
  | entrypoint (parts : List String)
  | label (pairs : List (String × String))
deriving DecidableEq, Repr

/-- Errors of `image_builder::ImageError`. -/
inductive ImageError
  | parseError (msg : String)
  | io (msg : String)
  | zfs (msg : String)
  | buildFailed (msg : String)
deriving DecidableEq, Repr

/-- Model of `chunks(2)` over whitespace-split words as used by the `ENV` and
`LABEL` arms: consecutive pairs, dropping a trailing odd word. -/
def chunkPairs : List String → List (String × String)
  | a :: b :: rest => (a, b) :: chunkPairs rest
  | _ => []

/-- JSON whitespace skipping. -/
def skipWsL (cs : List Char) : List Char :=
  cs.dropWhile RStr.isWs

/-- Body of a JSON string after its opening quote, on fuel: the decoded
characters and the remainder after the closing quote.  Covers the common
escapes; this models the fragment of `serde_json` used by the exec-form
`CMD`/`ENTRYPOINT`/`SHELL` arms (no claim depends on its exact extent). -/
def jsonStrFuel : Nat → List Char → Option (List Char × List Char)
  | 0, _ => none
  | _ + 1, [] => none
  | n + 1, c :: rest =>
    if c = '"' then some ([], rest)
    else if c = '\\' then
      match rest with
      | [] => none
      | e :: rest2 =>
        let dec : Option Char :=
          if e = '"' then some '"'
          else if e = '\\' then some '\\'
          else if e = '/' then some '/'
          else if e = 'n' then some '\n'
          else if e = 't' then some '\t'
          else if e = 'r' then some '\r'
          else none
        match dec with
        | none => none
        | some ch => (jsonStrFuel n rest2).map (fun p => (ch :: p.1, p.2))
    else (jsonStrFuel n rest).map (fun p => (c :: p.1, p.2))

/-- Elements of a JSON array of strings after its opening bracket, on fuel. -/
def jsonArrayFuel : Nat → List Char → Option (List String × List Char)
  | 0, _ => none
  | n + 1, cs =>
    match skipWsL cs with
    | ']' :: rest => some ([], rest)
    | '"' :: rest =>
      match jsonStrFuel (rest.length + 1) rest with
      | none => none
      | some (str, rem) =>
        match skipWsL rem with
        | ',' :: rem2 =>
          (jsonArrayFuel n rem2).map (fun p => (String.mk str :: p.1, p.2))
        | ']' :: rem2 => some ([String.mk str], rem2)
        | _ => none
    | _ => none

/-- Model of `serde_json::from_str::<Vec<String>>`. -/
def parseJsonStringArray (s : String) : Option (List String) :=
  match skipWsL s.data with
  | '[' :: rest =>
    match jsonArrayFuel (rest.length + 1) rest with
    | some (xs, rem) => if skipWsL rem = [] then some xs else none
    | none => none
  | _ => none

/-- Model of `ImageBuilder::substitute_build_args`: for each build arg, first
replace every occurrence of the braced form, then of the bare form. -/
def substituteBuildArgs (buildArgs : List (String × String)) (line : String) :
    String :=
  buildArgs.foldl
    (fun acc kv =>
      RStr.replaceStr (RStr.replaceStr acc ("$\x7b" ++ kv.1 ++ "\x7d") kv.2)
        ("$" ++ kv.1) kv.2)
    line

/-- Keyword of an instruction line: the uppercased part before the first
space, after build-arg substitution (`parts[0].to_uppercase()`). -/
def instrKeyword (buildArgs : List (String × String)) (line : String) : String :=
  RStr.toUpper (RStr.splitn2 ' ' (substituteBuildArgs buildArgs line)).1

/-- Argument part of an instruction line: everything after the first space,
trimmed (`parts.get(1).unwrap_or("").trim()`). -/
def instrArgs (buildArgs : List (String × String)) (line : String) : String :=
  RStr.trim ((RStr.splitn2 ' ' (substituteBuildArgs buildArgs line)).2.getD "")

/-- Dispatch of `ImageBuilder::parse_instruction` on the uppercased keyword
and the trimmed argument part.  Arms appear in source order. -/
def parseInstructionKw (instruction args : String) :
    Except ImageError DockerfileInstruction :=
  if instruction = "FROM" then .ok (.From args)
  else if instruction = "BOOTSTRAP" then
    let parts := RStr.splitWhitespace args
    let pick (i : Nat) : Option String :=
      match parts[i]? with
      | some p => if ¬ RStr.isEmptyStr p then some p else none
      | none => none
    .ok (.bootstrap (pick 0) (pick 1) (pick 2))
  else if instruction = "RUN" then .ok (.run args)
  else if instruction = "COPY" then
    let parts := RStr.splitWhitespace args
    if parts.length < 2 then
      .error (.parseError "COPY requires source and destination")
    else .ok (.copy none (parts.headD "") (parts.getLastD ""))
  else if instruction = "ADD" then
    let parts := RStr.splitWhitespace args
    if parts.length < 2 then
      .error (.parseError "ADD requires source and destination")
    else .ok (.add (parts.headD "") (parts.getLastD ""))
  else if instruction = "WORKDIR" then .ok (.workDir args)
  else if instruction = "ENV" then
    .ok (.env (chunkPairs (RStr.splitWhitespace args)))
  else if instruction = "EXPOSE" then
    match (RStr.splitWhitespace args).mapM RStr.parseU16 with
    | some ports => .ok (.expose ports)
    | none => .error (.parseError "Invalid port")
  else if instruction = "USER" then .ok (.user args)
  else if instruction = "VOLUME" then .ok (.volume (RStr.splitWhitespace args))
  else if instruction = "CMD" then
    if RStr.startsWith args "[" then
      match parseJsonStringArray args with
      | some xs => .ok (.cmd xs)
      | none => .error (.parseError "Invalid CMD syntax")
    else .ok (.cmd [args])
  else if instruction = "ENTRYPOINT" then
    if RStr.startsWith args "[" then
      match parseJsonStringArray args with
      | some xs => .ok (.entrypoint xs)
      | none => .error (.parseError "Invalid ENTRYPOINT syntax")
    else .ok (.entrypoint [args])
  else if instruction = "LABEL" then
    .ok (.label (chunkPairs (RStr.splitWhitespace args)))
  else if instruction = "ARG" then
    .ok (.run ("# ARG " ++ args))
  else if instruction = "STOPSIGNAL" then
    .ok (.label [("stop_signal", args)])
  else if instruction = "SHELL" then
    if RStr.startsWith args "[" then
      match parseJsonStringArray args with
      | some xs => .ok (.label [("shell", String.intercalate " " xs)])
      | none => .error (.parseError "Invalid SHELL syntax")
    else .ok (.label [("shell", args)])
  else .error (.parseError "Unknown instruction")

/-- Model of `ImageBuilder::parse_instruction`: substitute build args, split
the keyword off at the first space (the `splitn` of any line yields a first
part, so the source's dead `Empty instruction` arm cannot trigger), and
dispatch. -/
def parseInstruction (buildArgs : List (String × String)) (line : String) :
    Except ImageError DockerfileInstruction :=
  parseInstructionKw (instrKeyword buildArgs line) (instrArgs buildArgs line)

/-- Model of Rust `str::lines`: split at newlines, dropping the optional
final empty piece (carriage returns are outside the model; no claim involves
them). -/
def rustLines (s : String) : List String :=
  let ps := (RStr.splitChL '\n' s.data).map String.mk
  if ps.getLast? = some "" then ps.dropLast else ps

/-- Line loop of `parse_dockerfile`: trim each line; skip blank lines and
`#` comments; a line ending in a backslash is dropped by `continue` (the
line-continuation branch never parses it); parse every other line, aborting
at the first parse error. -/
def parseLines (buildArgs : List (String × String)) :
    List String → Except ImageError (List DockerfileInstruction)
  | [] => .ok []
  | line :: rest =>
    let t := RStr.trim line
    if RStr.isEmptyStr t || RStr.startsWith t "#" then parseLines buildArgs rest
    else if RStr.endsWith t "\\" then parseLines buildArgs rest
    else
      match parseInstruction buildArgs t with
      | .ok i => (parseLines buildArgs rest).map (fun is => i :: is)
      | .error e => .error e

/-- Model of `ImageBuilder::parse_dockerfile`: parse the lines, then require
the first parsed instruction (if any) to be `FROM`, dropping a leading
`FROM scratch`. -/
def parseDockerfile (buildArgs : List (String × String)) (s : String) :
    Except ImageError (List DockerfileInstruction) :=
  match parseLines buildArgs (rustLines s) with
  | .error e => .error e
  | .ok instructions =>
    match instructions with
    | [] => .ok []
    | first :: rest =>
      match first with
      | .From name =>
        if name = "scratch" then .ok rest
        else .ok (.From name :: rest)
      | _ => .error (.parseError "Dockerfile must start with FROM instruction")

/-! ## API protocol (`src/backend/src/api.rs`) -/

/-- HTTP-like methods (`api::Method`). -/
inductive Method
  | post
  | get
  | delete
deriving DecidableEq, Repr

/-- Endpoints (`api::Endpoint`). -/
inductive Endpoint
  | jails
  | jail (name : String)
  | startJail (name : String)
  | stopJail (name : String)
  | bootstrapJail (name : String)
  | bootstrapStatus (name : String)
  | images
  | image (id : String)
  | imageBuild
  | deleteImage (id : String)
  | imageHistory (id : String)
  | containers
  | container (id : String)
  | containerCreate
  | startContainer (id : String)
  | stopContainer (id : String)
  | removeContainer (id : String)
  | containerLogs (id : String)
  | containerExec (id : String)
deriving DecidableEq, Repr

/-- Error payload (`api::ApiError`): a code and a message. -/
structure ApiError where
  code : String
  message : String
deriving DecidableEq, Repr

/-- Constructor `ApiError::BadRequest`. -/
def ApiError.badRequest (msg : String) : ApiError :=
  ⟨"BAD_REQUEST", msg⟩

/-- Constructor `ApiError::NotFound`. -/
def ApiError.notFound (resource : String) : ApiError :=
  ⟨"NOT_FOUND", "Resource not found: " ++ resource⟩

/-- Constructor `ApiError::Conflict`. -/
def ApiError.conflict (msg : String) : ApiError :=
  ⟨"CONFLICT", msg⟩

/-- Constructor `ApiError::Internal`. -/
def ApiError.internal (msg : String) : ApiError :=
  ⟨"INTERNAL_ERROR", msg⟩

/-- Model of `Request::parse_endpoint`: split the endpoint at every `/` and
match the pieces.  A Rust match arm whose guard fails falls through to later
arms; arms of different list lengths are independent of each other, and
within one length the source order is preserved below, so the if-chains per
shape reproduce the source's first-match semantics. -/
def parseEndpoint (method : Method) (endpoint : String) :
    Except ApiError Endpoint :=
  match RStr.splitCh '/' endpoint with
  | [a] =>
    if a = "jails" then .ok .jails
    else if a = "images" then .ok .images
    else if a = "containers" then .ok .containers
    else .error (ApiError.badRequest ("Unknown endpoint: " ++ endpoint))
  | [a, b] =>
    if a = "jails" ∧ (method = .get ∨ method = .delete) then .ok (.jail b)
    else if a = "images" ∧ b = "build" then .ok .imageBuild
    else if a = "images" ∧ (method = .get ∨ method = .delete) then
      .ok (.image b)
    else if a = "containers" ∧ b = "create" then .ok .containerCreate
    else if a = "containers" ∧ (method = .get ∨ method = .delete) then
      .ok (.container b)
    else .error (ApiError.badRequest ("Unknown endpoint: " ++ endpoint))
  | [a, b, c] =>
    if a = "jails" ∧ c = "start" then .ok (.startJail b)
    else if a = "jails" ∧ c = "stop" then .ok (.stopJail b)
    else if a = "jails" ∧ c = "bootstrap" then .ok (.bootstrapJail b)
    else if a = "images" ∧ c = "history" then .ok (.imageHistory b)
    else if a = "containers" ∧ c = "start" then .ok (.startContainer b)
    else if a = "containers" ∧ c = "stop" then .ok (.stopContainer b)
    else if a = "containers" ∧ c = "logs" then .ok (.containerLogs b)
    else if a = "containers" ∧ c = "exec" then .ok (.containerExec b)
    else .error (ApiError.badRequest ("Unknown endpoint: " ++ endpoint))
  | [a, b, c, d] =>
    if a = "jails" ∧ c = "bootstrap" ∧ d = "status" then
      .ok (.bootstrapStatus b)
    else .error (ApiError.badRequest ("Unknown endpoint: " ++ endpoint))
  | _ => .error (ApiError.badRequest ("Unknown endpoint: " ++ endpoint))

/-! ## Domain state (`jail.rs`, `container.rs`, `store.rs`, `lib.rs`) -/

/-- Jail lifecycle states (`jail::JailState`). -/
inductive JailState
  | created
  | running
  | stopped
deriving DecidableEq, Repr

/-- Rendering of `api::state_to_string`. -/
def JailState.asStr : JailState → String
  | .created => "created"
  | .running => "running"
  | .stopped => "stopped"

/-- The `jail::Jail` struct. -/
structure Jail where
  name : String
  jid : Int
  state : JailState
  path : Option String
  ip : Option String
  vnetInterface : Option String
deriving DecidableEq, Repr

/-- Errors of `jail::JailError`. -/
inductive JailError
  | creationFailed (msg : String)
  | startFailed (msg : String)
  | stopFailed (msg : String)
  | destroyFailed (msg : String)
  | invalidState (msg : String)
  | invalidPath (msg : String)
deriving DecidableEq, Repr

/-- Errors of `store::StoreError`. -/
inductive StoreError
  | databaseError (msg : String)
  | invalidState (msg : String)
  | serializationError (msg : String)
deriving DecidableEq, Repr

/-- Container lifecycle states (`container::ContainerState`). -/
inductive ContainerState
  | created
  | running
  | stopped
  | paused
  | removing
deriving DecidableEq, Repr

/-- Rendering of `ContainerState::as_str`. -/
def ContainerState.asStr : ContainerState → String
  | .created => "created"
  | .running => "running"
  | .stopped => "stopped"
  | .paused => "paused"
  | .removing => "removing"

/-- Restart policies (`container::RestartPolicy`). -/
inductive RestartPolicy
  | no
  | onRestart
  | onFailure
  | always
deriving DecidableEq, Repr

/-- Rendering of `RestartPolicy::as_str`. -/
def RestartPolicy.asStr : RestartPolicy → String
  | .no => "no"
  | .onRestart => "on-restart"
  | .onFailure => "on-failure"
  | .always => "always"

/-- Port protocols (`container::PortProtocol`). -/
inductive PortProtocol
  | tcp
  | udp
deriving DecidableEq, Repr

/-- Port mappings (`container::PortMapping`). -/
structure PortMapping where
  hostPort : Nat
  containerPort : Nat
  protocol : PortProtocol
deriving DecidableEq, Repr

/-- Mount types (`container::MountType`). -/
inductive MountType
  | zfs
  | nullfs
deriving DecidableEq, Repr

/-- Mounts (`container::Mount`). -/
structure Mount where
  source : String
  destination : String
  mountType : MountType
  readOnly : Bool
deriving DecidableEq, Repr

/-- The `container::Container` struct. -/
structure Container where
  id : String
  name : Option String
  imageId : String
  jailName : String
  dataset : String
  state : ContainerState
  restartPolicy : RestartPolicy
  mounts : List Mount
  portMappings : List PortMapping
  ip : Option String
  createdAt : Int
  startedAt : Option Int
deriving DecidableEq, Repr

/-- Rows of the SQLite store visible to the claims: which jail rows (by name)
and container rows (by id) exist.  Only row existence matters to any claim;
the remaining columns are not modelled. -/
structure StoreState where
  jailNames : List String
  containerIds : List String
deriving DecidableEq, Repr

/-- Lookup in an association-list model of `HashMap`. -/
def mapGet {α : Type} : List (String × α) → String → Option α
  | [], _ => none
  | (k2, v) :: rest, k => if k2 = k then some v else mapGet rest k

/-- Key removal (`HashMap::remove` drops the key; keys are unique in a hash
map, so filtering is equivalent). -/
def mapErase {α : Type} (l : List (String × α)) (k : String) :
    List (String × α) :=
  l.filter (fun p => ¬ p.1 = k)

/-- Key insertion (`HashMap::insert` replaces any existing entry). -/
def mapInsert {α : Type} (l : List (String × α)) (k : String) (v : α) :
    List (String × α) :=
  (k, v) :: mapErase l k

/-- The `JailManager` state visible to the claims: the jails map, the
containers map, and the optional persistence store.  The images map, the
progress maps, the zfs handle and the config are untouched by every modelled
operation and are omitted. -/
structure Manager where
  jails : List (String × Jail)
  containers : List (String × Container)
  store : Option StoreState
deriving DecidableEq, Repr

/-- Model of `JailManager::get_jail`. -/
def Manager.getJail (m : Manager) (name : String) : Option Jail :=
  mapGet m.jails name

/-- Model of `JailManager::get_container`: a map lookup.  (The source's
`or_else` fallback inspects the store but always evaluates to `None`, so it
contributes nothing.) -/
def Manager.getContainer (m : Manager) (id : String) : Option Container :=
  mapGet m.containers id

/-- Modelled from the spec: `JailManager::get_container_by_prefix` is called
by every container handler but its definition is not among the provided
sources.  The spec describes id-prefix resolution, so the model returns the
first container whose id starts with the given string. -/
def Manager.getContainerByPrefix (m : Manager) (pre : String) :
    Option Container :=
  (m.containers.map Prod.snd).find? (fun c => RStr.startsWith c.id pre)

/-- Model of `JailManager::list_containers`: the in-memory collection (the
database rows are only counted in a debug log). -/
def Manager.listContainers (m : Manager) : List Container :=
  m.containers.map Prod.snd

/-! ## Responses and request routing (`api.rs`, `handler.rs`) -/

/-- Response payloads constructed by the modelled handlers.  `JailInfo` and
`ContainerInfo` carry the fields the handlers actually set. -/
structure JailInfoM where
  name : String
  jid : Int
  state : String
  path : Option String
deriving DecidableEq, Repr

/-- Container info as built by the container handlers. -/
structure ContainerInfoM where
  id : String
  name : Option String
  imageId : String
  state : String
  ip : Option String
  restartPolicy : String
  createdAt : Int
  startedAt : Option Int
deriving DecidableEq, Repr

/-- The `data` field of a response, for the modelled handlers. -/
inductive RespData
  | jailInfo (j : JailInfoM)
  | containerInfo (c : ContainerInfoM)
  | message (s : String)
deriving DecidableEq, Repr

/-- The `api::Response` struct (`serde_json::to_value` of a payload never
fails in the model, so `Response::ok` always succeeds). -/
structure Response where
  status : Nat
  data : Option RespData
  error : Option ApiError
deriving DecidableEq, Repr

/-- Constructor `Response::success` (200). -/
def Response.success (d : RespData) : Response := ⟨200, some d, none⟩

/-- Constructor `Response::created` (201). -/
def Response.created (d : RespData) : Response := ⟨201, some d, none⟩

/-- Constructor `Response::bad_request` (400). -/
def Response.badRequest (msg : String) : Response :=
  ⟨400, none, some (ApiError.badRequest msg)⟩

/-- Constructor `Response::not_found` (404). -/
def Response.notFound (resource : String) : Response :=
  ⟨404, none, some (ApiError.notFound resource)⟩

/-- Constructor `Response::conflict` (409). -/
def Response.conflict (msg : String) : Response :=
  ⟨409, none, some (ApiError.conflict msg)⟩

/-- Constructor `Response::internal_error` (500). -/
def Response.internalError (msg : String) : Response :=
  ⟨500, none, some (ApiError.internal msg)⟩

/-- The handler arms of `handle_request`'s `match (&request.method,
&endpoint)`, one constructor per source arm plus the `_` fallback
(`mismatch`). -/
inductive HandlerChoice
  | listJails
  | getJail (name : String)
  | getBootstrapProgress (name : String)
  | createJail
  | startJail (name : String)
  | stopJail (name : String)
  | bootstrapJail (name : String)
  | deleteJail (name : String)
  | listImages
  | getImage (s : String)
  | buildImage
  | deleteImage (s : String)
  | getImageHistory (s : String)
  | listContainers
  | getContainer (s : String)
  | createContainer
  | startContainer (s : String)
  | stopContainer (s : String)
  | execContainer (s : String)
  | removeContainer (s : String)
  | mismatch
deriving DecidableEq, Repr

/-- Model of `handle_request`'s dispatch match, arm for arm in source order
(the arms are syntactically disjoint, so order does not matter beyond the
`_` fallback). -/
def dispatch : Method → Endpoint → HandlerChoice
  | .get, .jails => .listJails
  | .get, .jail name => .getJail name
  | .get, .bootstrapStatus name => .getBootstrapProgress name
  | .post, .jails => .createJail
  | .post, .startJail name => .startJail name
  | .post, .stopJail name => .stopJail name
  | .post, .bootstrapJail name => .bootstrapJail name
  | .delete, .jail name => .deleteJail name
  | .get, .images => .listImages
  | .get, .image s => .getImage s
  | .post, .imageBuild => .buildImage
  | .delete, .deleteImage s => .deleteImage s
  | .get, .imageHistory s => .getImageHistory s
  | .get, .containers => .listContainers
  | .get, .container s => .getContainer s
  | .post, .containerCreate => .createContainer
  | .post, .startContainer s => .startContainer s
  | .post, .stopContainer s => .stopContainer s
  | .post, .containerExec s => .execContainer s
  | .delete, .removeContainer s => .removeContainer s
  | _, _ => .mismatch

/-- Reply of the `_` fallback arm: a 400 naming the method and endpoint
(message abbreviated). -/
def mismatchResponse (method : Method) (endpoint : String) : Response :=
  Response.badRequest ("Method not supported for endpoint " ++ endpoint)

/-! ## Jail creation (`api.rs` `CreateJailRequest::validate`, `jail.rs`
`Jail::create`, `handler.rs` `create_jail`) -/

/-- Model of Rust `char::is_alphanumeric` (Unicode alphabetic or numeric).
Exact on the Basic Latin and Latin-1 Supplement blocks (code points up to
`0xFF`): ASCII letters and digits; the Latin-1 letters `ª µ º`, `À`–`ÿ`
except `×` and `÷`; and the Latin-1 numerics `² ³ ¹ ¼ ½ ¾`.  Code points
above `0xFF` are outside the modelled fragment and mapped to `false`; every
theorem about name validation restricts names to the modelled blocks. -/
def rustIsAlphanumeric (c : Char) : Bool :=
  let n := c.toNat
  if n ≤ 0x7F then c.isAlphanum
  else if n ≤ 0xFF then
    n = 0xAA ∨ n = 0xB5 ∨ n = 0xBA ∨
    n = 0xB2 ∨ n = 0xB3 ∨ n = 0xB9 ∨
    (0xBC ≤ n ∧ n ≤ 0xBE) ∨
    (0xC0 ≤ n ∧ n ≠ 0xD7 ∧ n ≠ 0xF7)
  else false

/-- The character test shared by `CreateJailRequest::validate` and
`Jail::create`: every character alphanumeric, underscore or hyphen. -/
def jailNameOk (name : String) : Bool :=
  name.data.all (fun c => rustIsAlphanumeric c || c = '_' || c = '-')

/-- Model of `Jail::create`: reject empty or invalid names, else a fresh jail
with `jid = -1` in state `Created`. -/
def Jail.create (name : String) : Except JailError Jail :=
  if RStr.isEmptyStr name then
    .error (.creationFailed "Jail name cannot be empty")
  else if ¬ jailNameOk name then
    .error (.creationFailed "Invalid jail name")
  else .ok ⟨name, -1, .created, none, none, none⟩

/-- The `api::CreateJailRequest` body.  (Its `bootstrap` field is never read
by `create_jail` and is omitted.) -/
structure CreateJailRequest where
  name : String
  path : Option String
  ip : Option String
deriving DecidableEq, Repr

/-- Model of `CreateJailRequest::validate`. -/
def CreateJailRequest.validate (r : CreateJailRequest) :
    Except ApiError Unit :=
  if RStr.isEmptyStr r.name then
    .error (ApiError.badRequest "Jail name cannot be empty")
  else if ¬ jailNameOk r.name then
    .error (ApiError.badRequest "Invalid jail name")
  else .ok ()

/-- Model of `impl From<JailError> for ApiError` (the name extraction from
the message is abbreviated; the codes are exact). -/
def apiErrorOfJailError : JailError → ApiError
  | .creationFailed msg =>
    if RStr.containsSub msg "already exists" then
      ApiError.conflict "Jail already exists"
    else ApiError.badRequest msg
  | .startFailed msg =>
    if RStr.containsSub msg "not found" then ApiError.notFound "Jail"
    else ⟨"START_FAILED", msg⟩
  | .stopFailed msg =>
    if RStr.containsSub msg "not found" then ApiError.notFound "Jail"
    else ⟨"STOP_FAILED", msg⟩
  | .destroyFailed msg =>
    if RStr.containsSub msg "not found" then ApiError.notFound "Jail"
    else ⟨"DESTROY_FAILED", msg⟩
  | .invalidState msg => ApiError.badRequest msg
  | .invalidPath msg => ApiError.badRequest msg

/-- Model of `handler::create_jail`: validate (400 on failure); 409 on a
duplicate name; build the jail via `Jail::create` (mapping its error by
code); apply the optional path and ip (`with_path`/`with_ip` are
infallible); then insert into the in-memory `jails` map directly — the
persistence store is not touched on this path — and reply 201 with the jail
info. -/
def createJailH (m : Manager) (req : CreateJailRequest) :
    Response × Manager :=
  match req.validate with
  | .error err => (Response.badRequest err.message, m)
  | .ok _ =>
    if (Manager.getJail m req.name).isSome then
      (Response.conflict "Jail already exists", m)
    else
      match Jail.create req.name with
      | .error e =>
        let apiErr := apiErrorOfJailError e
        (if apiErr.code = "BAD_REQUEST" then Response.badRequest apiErr.message
         else if apiErr.code = "CONFLICT" then Response.conflict apiErr.message
         else Response.internalError apiErr.message, m)
      | .ok jail =>
        let jail1 := match req.path with
          | some p => { jail with path := some p }
          | none => jail
        let jail2 := match req.ip with
          | some ipa => { jail1 with ip := some ipa }
          | none => jail1
        (Response.created (.jailInfo ⟨req.name, -1, "created", req.path⟩),
         { m with jails := mapInsert m.jails req.name jail2 })

/-- Model of `handler::get_container`: resolve exact id, then id-prefix,
then exact name, and reply with the container info or 404. -/
def getContainerH (m : Manager) (idOrName : String) : Response :=
  let container :=
    (Manager.getContainer m idOrName).orElse (fun _ =>
      (Manager.getContainerByPrefix m idOrName).orElse (fun _ =>
        (Manager.listContainers m).find? (fun c => c.name = some idOrName)))
  match container with
  | some c =>
    Response.success (.containerInfo
      ⟨c.id, c.name, c.imageId, c.state.asStr, c.ip, c.restartPolicy.asStr,
        c.createdAt, c.startedAt⟩)
  | none => Response.notFound ("Container " ++ idOrName)

/-! ## Container removal (`lib.rs` `JailManager::{stop_jail, remove_jail,
remove_container}`)

Outcomes of the external effects reached by these methods are supplied in an
environment record. -/

/-- Outcomes of the external effects: root check, the `jail_remove` syscall,
the zfs destroy, and the store deletions. -/
structure Env where
  isRoot : Bool
  removeJailSyscall : Except JailError Unit
  zfsDestroy : Except String Unit
  storeDeleteJail : Except StoreError Unit
  storeDeleteContainer : Except StoreError Unit
deriving DecidableEq, Repr

/-- Model of `Jail::stop` (FreeBSD path): reject when not running or not
root; unmount devfs (errors ignored, no modelled state); `remove_freebsd_jail`
per the environment; on success clear the JID and mark stopped. -/
def Jail.stop (env : Env) (j : Jail) : Except JailError Unit × Jail :=
  if j.state ≠ .running then
    (.error (.stopFailed "Jail is not running"), j)
  else if ¬ env.isRoot then
    (.error (.stopFailed "Jail removal requires root privileges"), j)
  else
    match env.removeJailSyscall with
    | .error e => (.error e, j)
    | .ok _ => (.ok (), { j with jid := -1, state := .stopped })

/-- Model of `Jail::destroy`: stop first when running (propagating failure);
the path cleanup in the source is a no-op. -/
def Jail.destroy (env : Env) (j : Jail) : Except JailError Unit :=
  if j.state = .running then (Jail.stop env j).1
  else .ok ()

/-- Model of `JailManager::stop_jail`: look the jail up (`StopFailed` when
missing); stop it — the mutation applies in place as with `get_mut` — and
return the stop result (`update_jail` store errors are logged and ignored,
and the store row set is unchanged by an update). -/
def Manager.stopJail (env : Env) (m : Manager) (name : String) :
    Except JailError Unit × Manager :=
  match mapGet m.jails name with
  | none => (.error (.stopFailed "Jail not found"), m)
  | some j =>
    ((Jail.stop env j).1,
     { m with jails := mapInsert m.jails name (Jail.stop env j).2 })

/-- The store half of `JailManager::remove_jail`: delete the jail row when a
store is configured and the delete succeeds; a delete error is logged and
ignored, leaving the row. -/
def deleteJailRow (env : Env) (m : Manager) (name : String) : Manager :=
  match m.store, env.storeDeleteJail with
  | some st, .ok _ =>
    let st2 : StoreState := { st with jailNames := st.jailNames.filter (fun x => ¬ x = name) }
    { m with store := some st2 }
  | _, _ => m

/-- Model of `JailManager::remove_jail`: take the jail out of the map first
(`DestroyFailed` when missing); destroy it, propagating failure (the map
entry stays removed); then delete the store row with errors ignored. -/
def Manager.removeJail (env : Env) (m : Manager) (name : String) :
    Except JailError Unit × Manager :=
  match mapGet m.jails name with
  | none => (.error (.destroyFailed "Jail not found"), m)
  | some j =>
    match Jail.destroy env j with
    | .error e => (.error e, { m with jails := mapErase m.jails name })
    | .ok _ =>
      (.ok (), deleteJailRow env { m with jails := mapErase m.jails name } name)

/-- The `let _ = self.stop_jail(...)` step of `remove_container`: stop the
container's jail when the container was running, discarding the result. -/
def stopIfRunning (env : Env) (m : Manager) (c : Container) : Manager :=
  if c.state = .running then (Manager.stopJail env m c.jailName).2 else m

/-- The final store step of `remove_container`: with a store configured,
`store.delete_container(id)?` propagates its error; without one, succeed. -/
def storeDeleteContainerStep (env : Env) (m : Manager) (id : String) :
    Except StoreError Unit × Manager :=
  match m.store with
  | some st =>
    match env.storeDeleteContainer with
    | .error e => (.error e, m)
    | .ok _ =>
      let st2 : StoreState := { st with containerIds := st.containerIds.filter (fun x => ¬ x = id) }
      (.ok (), { m with store := some st2 })
  | none => (.ok (), m)

/-- Model of `JailManager::remove_container`: remove the container from the
in-memory map as soon as it is found; best-effort stop its jail (when
running), destroy its jail, and destroy its zfs dataset — every error
ignored (`zfs.destroy` has no modelled manager state); finally delete the
store row, propagating only that failure. -/
def Manager.removeContainer (env : Env) (m : Manager) (id : String) :
    Except StoreError Unit × Manager :=
  match mapGet m.containers id with
  | none => (.error (.serializationError "Container not found"), m)
  | some c =>
    storeDeleteContainerStep env
      ((Manager.removeJail env
          (stopIfRunning env { m with containers := mapErase m.containers id } c)
          c.jailName).2)
      id

/-! ## Connection loop (`server.rs`, `handle_connection`) -/

/-- Request bodies as decoded by the per-endpoint `serde_json::from_value`
calls (the modelled fragment). -/
inductive BodyM
  | null
  | createJailReq (r : CreateJailRequest)
  | invalid
deriving DecidableEq, Repr

/-- The `api::Request` struct. -/
structure Request where
  method : Method
  endpoint : String
  body : BodyM
deriving DecidableEq, Repr

/-- One `framed.next()` outcome, combined with the
`serde_json::from_value::<Request>` parse: a well-formed request, a decoded
frame that is not a valid request, or a frame-decode error. -/
inductive Incoming
  | request (r : Request)
  | invalid
  | decodeFailure
deriving DecidableEq, Repr

/-- Reply for an unparsable request: synthetic 400, code `INVALID_REQUEST`. -/
def invalidRequestResponse : Response :=
  ⟨400, none, some ⟨"INVALID_REQUEST", "Invalid request format"⟩⟩

/-- Model of `handle_connection`'s read loop, parameterized over the request
handler (`handle_request` in the source) threading the shared state `σ`: a
well-formed request is handled and answered and the loop continues; an
unparsable request is answered with the synthetic 400 and the loop
continues; a frame-decode error ends the connection with an error; end of
input is the client closing, ending it cleanly.  Returns the replies sent in
order, whether the end was clean, and the final state.  (Response
serialization never fails in the model, so the source's
serialization-failure arm is unreachable.) -/
def connLoop {σ : Type} (handle : Request → σ → Response × σ) :
    List Incoming → σ → List Response × Bool × σ
  | [], st => ([], true, st)
  | .request r :: rest, st =>
    let hr := handle r st
    let cont := connLoop handle rest hr.2
    (hr.1 :: cont.1, cont.2.1, cont.2.2)
  | .invalid :: rest, st =>
    let cont := connLoop handle rest st
    (invalidRequestResponse :: cont.1, cont.2.1, cont.2.2)
  | .decodeFailure :: _, st => ([], false, st)

/-! ## Concrete fixtures used by counterexamples and witnesses -/

/-- A container whose exact name is the string `web`. -/
def containerNamedWeb : Container :=
  ⟨"aaaa1111", some "web", "img1", "kawakaze-aaaa1111",
    "zroot/kawakaze/containers/aaaa1111", .created, .no, [], [], none, 0, none⟩

/-- A container whose id has the string `web` as a proper prefix. -/
def containerWebIdPre : Container :=
  ⟨"webzzzz1", none, "img1", "kawakaze-webzzzz1",
    "zroot/kawakaze/containers/webzzzz1", .created, .no, [], [], none, 0, none⟩

/-- A manager holding both containers above and nothing else. -/
def managerTwoContainers : Manager :=
  ⟨[], [("aaaa1111", containerNamedWeb), ("webzzzz1", containerWebIdPre)],
    none⟩

end Kawakaze

namespace Kawakaze

/-! ## Theorems -/

theorem fromBytesBE4_toBytesBE4 (n : Nat) (h : n < 2 ^ 32) :
    fromBytesBE4 (n % 2 ^ 32 / 2 ^ 24) (n % 2 ^ 24 / 2 ^ 16)
      (n % 2 ^ 16 / 2 ^ 8) (n % 2 ^ 8) = n := by
  unfold fromBytesBE4
  omega

/-- C1 counterexample: the frame for the two-byte JSON object `\x7b\x7d` is the
4-byte big-endian length prefix `[0,0,0,2]` followed by the payload, not the
payload followed by a newline. -/
theorem c1_counterexample :
    JsonCodec.encode [123, 125] = [0, 0, 0, 2, 123, 125] ∧
      decide (JsonCodec.encode [123, 125] = [123, 125, 10]) = false := by
  constructor
  · rfl
  · decide

/-- C1 (amended): the server frames every message as a 4-byte big-endian
length prefix followed by the JSON payload; decoding a well-formed frame
returns exactly the payload and leaves the rest of the buffer. -/
theorem c1_length_prefix_framing (payload rest : List Nat)
    (h : payload.length < 2 ^ 32) :
    JsonCodec.encode payload = toBytesBE4 payload.length ++ payload ∧
      JsonCodec.decode (JsonCodec.encode payload ++ rest) =
        some (payload, rest) := by
  refine ⟨rfl, ?_⟩
  unfold JsonCodec.encode toBytesBE4 JsonCodec.decode
  simp only [List.cons_append, List.nil_append]
  rw [fromBytesBE4_toBytesBE4 payload.length h]
  simp [List.take_left, List.drop_left]

/-- C1 witness: instantiation of `c1_length_prefix_framing` at a concrete
payload. -/
theorem c1_length_prefix_framing_witness :
    JsonCodec.encode [1] = toBytesBE4 1 ++ [1] ∧
      JsonCodec.decode (JsonCodec.encode [1] ++ [2]) = some ([1], [2]) :=
  c1_length_prefix_framing [1] [2] (by decide)

/-- C6 counterexample: on the common four-column routing table line
`default 10.0.0.1 UGS em0` the field at column index 3 is `em0`, yet the code
returns nothing (it requires at least 8 fields and reads index 7). -/
theorem c6_counterexample :
    (RStr.splitWhitespace "default 10.0.0.1 UGS em0")[3]? = some "em0" ∧
      getDefaultInterface ["default 10.0.0.1 UGS em0"] = none := by
  constructor <;> decide

/-- C6 (amended): the interface is the whitespace-field at column index 7 of
the first line starting with `default` or `0.0.0.0` that has at least 8
fields; default lines with fewer than 8 fields are skipped, as are
non-default lines. -/
theorem c6_default_interface (pre : List String) (line : String)
    (rest : List String)
    (hpre : ∀ l ∈ pre, defaultIfaceOfLine l = none)
    (hstart : RStr.startsWith line "default" || RStr.startsWith line "0.0.0.0")
    (hlen : 8 ≤ (RStr.splitWhitespace line).length) :
    getDefaultInterface (pre ++ line :: rest) =
      (RStr.splitWhitespace line)[7]? := by
  induction pre with
  | nil =>
    simp only [List.nil_append, getDefaultInterface, List.findSome?_cons]
    rw [show defaultIfaceOfLine line = (RStr.splitWhitespace line)[7]? by
      unfold defaultIfaceOfLine
      rw [if_pos hstart, if_pos hlen]]
    rw [List.getElem?_eq_getElem (by omega)]
  | cons l ls ih =>
    simp only [List.cons_append, getDefaultInterface, List.findSome?_cons,
      hpre l (by simp)]
    exact ih (fun x hx => hpre x (by simp [hx]))

/-- C6 witness: instantiation of `c6_default_interface` on a concrete routing
table whose first default line has 8 fields, with a skipped header line
before it. -/
theorem c6_default_interface_witness :
    getDefaultInterface
        ["Routing tables", "default 10.0.0.1 UGS 0 0 1500 77 em0"] =
      some "em0" := by
  have h := c6_default_interface ["Routing tables"]
    "default 10.0.0.1 UGS 0 0 1500 77 em0" []
    (by intro l hl; simp at hl; subst hl; decide) (by decide) (by decide)
  rw [show (RStr.splitWhitespace "default 10.0.0.1 UGS 0 0 1500 77 em0")[7]? =
      some "em0" from by decide] at h
  simpa using h

theorem scanFree_isOk_of_valid (A : List Ipv4) (n : Nat) :
    ∀ start, (∀ k < n, 2 ≤ start + k ∧ start + k ≤ 65534) →
      ∃ r, scanFree A start n = .ok r := by
  induction n with
  | zero => intro start _; exact ⟨none, rfl⟩
  | succ m ih =>
    intro start hvalid
    have h0 := hvalid 0 (by omega)
    unfold scanFree offsetToIp
    rw [if_neg (by omega)]
    by_cases hmem : ipOfOffset start ∈ A
    · simp only [hmem, if_pos]
      exact ih (start + 1) (fun k hk => by have := hvalid (k + 1) (by omega); omega)
    · simp only [hmem]
      exact ⟨some (start, ipOfOffset start), by simp⟩

theorem scanFree_some_spec (A : List Ipv4) (n : Nat) :
    ∀ start o ip, scanFree A start n = .ok (some (o, ip)) →
      ip = ipOfOffset o ∧ ip ∉ A ∧ 2 ≤ o ∧ o ≤ 65534 := by
  induction n with
  | zero => intro start o ip h; simp [scanFree] at h
  | succ m ih =>
    intro start o ip h
    unfold scanFree at h
    cases hcv : offsetToIp start with
    | error e => rw [hcv] at h; simp at h
    | ok ip0 =>
      rw [hcv] at h
      unfold offsetToIp at hcv
      by_cases hval : start > 65534 ∨ start < 2
      · rw [if_pos hval] at hcv; simp at hcv
      · rw [if_neg hval] at hcv
        simp only at h
        by_cases hmem : ip0 ∈ A
        · rw [if_pos hmem] at h
          exact ih (start + 1) o ip h
        · rw [if_neg hmem] at h
          simp only [Except.ok.injEq, Option.some.injEq, Prod.mk.injEq] at h
          obtain ⟨ho, hip⟩ := h
          subst ho; subst hip
          have hip0 : ip0 = ipOfOffset start := by
            simpa using hcv.symm
          exact ⟨hip0, hmem, by omega, by omega⟩

theorem scanFree_none_mem (A : List Ipv4) (n : Nat) :
    ∀ start, scanFree A start n = .ok none →
      ∀ k < n, ipOfOffset (start + k) ∈ A := by
  induction n with
  | zero => intro start _ k hk; omega
  | succ m ih =>
    intro start h k hk
    unfold scanFree at h
    cases hcv : offsetToIp start with
    | error e => rw [hcv] at h; simp at h
    | ok ip0 =>
      rw [hcv] at h
      have hip0 : ip0 = ipOfOffset start := by
        unfold offsetToIp at hcv
        by_cases hval : start > 65534 ∨ start < 2
        · rw [if_pos hval] at hcv; simp at hcv
        · rw [if_neg hval] at hcv; simpa using hcv.symm
      simp only at h
      by_cases hmem : ip0 ∈ A
      · rw [if_pos hmem] at h
        match k with
        | 0 => simpa [hip0.symm] using hmem
        | k' + 1 =>
          have := ih (start + 1) h k' (by omega)
          simpa [Nat.add_assoc, Nat.add_comm 1 k'] using this
      · rw [if_neg hmem] at h; simp at h

theorem scanFree_finds (A : List Ipv4) (n : Nat) :
    ∀ start, 2 ≤ start →
      (∃ k < n, start + k ≤ 65534 ∧ ipOfOffset (start + k) ∉ A) →
      ∃ o ip, scanFree A start n = .ok (some (o, ip)) := by
  induction n with
  | zero => intro start _ h; obtain ⟨k, hk, _⟩ := h; omega
  | succ m ih =>
    intro start hstart h
    obtain ⟨k, hk, hk65, hkfree⟩ := h
    have hstartval : ¬ (start > 65534 ∨ start < 2) := by omega
    unfold scanFree offsetToIp
    rw [if_neg hstartval]
    by_cases hmem : ipOfOffset start ∈ A
    · simp only [hmem, if_pos]
      match k with
      | 0 => exact absurd hmem (by simpa using hkfree)
      | k' + 1 =>
        exact ih (start + 1) (by omega)
          ⟨k', by omega, by omega, by
            have heq : start + 1 + k' = start + (k' + 1) := by omega
            rw [heq]; exact hkfree⟩
    · simp only [hmem]
      exact ⟨start, ipOfOffset start, by simp⟩

theorem scanFree_none_of_all (A : List Ipv4) (n : Nat) :
    ∀ start, (∀ k < n, 2 ≤ start + k ∧ start + k ≤ 65534 ∧
        ipOfOffset (start + k) ∈ A) →
      scanFree A start n = .ok none := by
  induction n with
  | zero => intro start _; rfl
  | succ m ih =>
    intro start hall
    have h0 := hall 0 (by omega)
    unfold scanFree offsetToIp
    rw [if_neg (by omega)]
    have hmem : ipOfOffset start ∈ A := by simpa using h0.2.2
    simp only [hmem, if_pos]
    exact ih (start + 1) (fun k hk => by
      have hks := hall (k + 1) (by omega)
      refine ⟨by omega, by omega, ?_⟩
      have heq : start + 1 + k = start + (k + 1) := by omega
      rw [heq]; exact hks.2.2)

/-- C7: `IpAllocator::allocate` scans forward from the cursor `next_ip`,
wraps back to offset 2, and fails with `IpExhausted` exactly when the pool is
full: whenever some host offset in the half-open range `2..65534` is
unallocated, `allocate` returns a fresh address inside `10.11.0.0/16` rather
than `IpExhausted`; and when every offset of that range is allocated (for a
cursor within the pool) it returns `IpExhausted`. -/
theorem c7_allocate (st : IpAllocator) (h2 : 2 ≤ st.nextIp) :
    ((∃ o, 2 ≤ o ∧ o < 65534 ∧ ipOfOffset o ∉ st.allocatedIps) →
      ∃ ip st2, IpAllocator.allocate (.ok ()) st = (.ok ip, st2) ∧
        ip.a = 10 ∧ ip.b = 11 ∧ ip ∉ st.allocatedIps) ∧
    (st.nextIp ≤ 65534 →
      (∀ o, 2 ≤ o → o < 65534 → ipOfOffset o ∈ st.allocatedIps) →
      (IpAllocator.allocate (.ok ()) st).1 = .error .ipExhausted) := by
  constructor
  · rintro ⟨o, ho2, ho65, hfree⟩
    obtain ⟨r, hr⟩ := scanFree_isOk_of_valid st.allocatedIps
      (65534 - st.nextIp) st.nextIp (fun k hk => by omega)
    cases r with
    | some p =>
      obtain ⟨o1, ip1⟩ := p
      obtain ⟨hip1, hnot1, _, _⟩ :=
        scanFree_some_spec st.allocatedIps (65534 - st.nextIp) st.nextIp o1 ip1 hr
      refine ⟨ip1, ⟨ip1 :: st.allocatedIps, o1 + 1⟩, ?_, ?_, ?_, hnot1⟩
      · unfold IpAllocator.allocate
        rw [hr]
      · rw [hip1]; rfl
      · rw [hip1]; rfl
    | none =>
      have hmem := scanFree_none_mem st.allocatedIps (65534 - st.nextIp) st.nextIp hr
      have honext : o < st.nextIp := by
        by_contra hge
        push_neg at hge
        have hoin := hmem (o - st.nextIp) (by omega)
        rw [show st.nextIp + (o - st.nextIp) = o by omega] at hoin
        exact hfree hoin
      obtain ⟨o2, ip2, hr2⟩ := scanFree_finds st.allocatedIps (st.nextIp - 2) 2
        (by omega) ⟨o - 2, by omega, by omega, by
          rw [show 2 + (o - 2) = o by omega]; exact hfree⟩
      obtain ⟨hip2, hnot2, _, _⟩ :=
        scanFree_some_spec st.allocatedIps (st.nextIp - 2) 2 o2 ip2 hr2
      refine ⟨ip2, ⟨ip2 :: st.allocatedIps, st.nextIp⟩, ?_, ?_, ?_, hnot2⟩
      · unfold IpAllocator.allocate
        rw [hr, hr2]
      · rw [hip2]; rfl
      · rw [hip2]; rfl
  · intro hle hall
    have h1 : scanFree st.allocatedIps st.nextIp (65534 - st.nextIp) = .ok none :=
      scanFree_none_of_all st.allocatedIps (65534 - st.nextIp) st.nextIp
        (fun k hk => ⟨by omega, by omega, hall (st.nextIp + k) (by omega) (by omega)⟩)
    have h2' : scanFree st.allocatedIps 2 (st.nextIp - 2) = .ok none :=
      scanFree_none_of_all st.allocatedIps (st.nextIp - 2) 2
        (fun k hk => ⟨by omega, by omega, hall (2 + k) (by omega) (by omega)⟩)
    unfold IpAllocator.allocate
    rw [h1, h2']

/-- C7 witness: on the empty allocator with cursor 2, `allocate` hands out a
fresh `10.11.*` address. -/
theorem c7_allocate_witness :
    ∃ ip st2,
      IpAllocator.allocate (.ok ()) ⟨[], 2⟩ = (.ok ip, st2) ∧
        ip.a = 10 ∧ ip.b = 11 ∧
        ip ∉ (⟨[], 2⟩ : IpAllocator).allocatedIps :=
  (c7_allocate ⟨[], 2⟩ (by decide)).1 ⟨2, by decide, by decide, by decide⟩

theorem parseInstructionKw_from (kw args s : String)
    (h : parseInstructionKw kw args = .ok (.From s)) : kw = "FROM" := by
  by_cases hk : kw = "FROM"
  · exact hk
  · exfalso
    unfold parseInstructionKw at h
    rw [if_neg hk] at h
    by_cases h2 : kw = "BOOTSTRAP"
    · rw [if_pos h2] at h
      try dsimp only at h
      first
        | (split at h <;> (try split at h) <;> simp_all)
        | simp at h
    rw [if_neg h2] at h
    by_cases h3 : kw = "RUN"
    · rw [if_pos h3] at h
      try dsimp only at h
      first
        | (split at h <;> (try split at h) <;> simp_all)
        | simp at h
    rw [if_neg h3] at h
    by_cases h4 : kw = "COPY"
    · rw [if_pos h4] at h
      try dsimp only at h
      first
        | (split at h <;> (try split at h) <;> simp_all)
        | simp at h
    rw [if_neg h4] at h
    by_cases h5 : kw = "ADD"
    · rw [if_pos h5] at h
      try dsimp only at h
      first
        | (split at h <;> (try split at h) <;> simp_all)
        | simp at h
    rw [if_neg h5] at h
    by_cases h6 : kw = "WORKDIR"
    · rw [if_pos h6] at h
      try dsimp only at h
      first
        | (split at h <;> (try split at h) <;> simp_all)
        | simp at h
    rw [if_neg h6] at h
    by_cases h7 : kw = "ENV"
    · rw [if_pos h7] at h
      try dsimp only at h
      first
        | (split at h <;> (try split at h) <;> simp_all)
        | simp at h
    rw [if_neg h7] at h
    by_cases h8 : kw = "EXPOSE"
    · rw [if_pos h8] at h
      try dsimp only at h
      first
        | (split at h <;> (try split at h) <;> simp_all)
        | simp at h
    rw [if_neg h8] at h
    by_cases h9 : kw = "USER"
    · rw [if_pos h9] at h
      try dsimp only at h
      first
        | (split at h <;> (try split at h) <;> simp_all)
        | simp at h
    rw [if_neg h9] at h
    by_cases h10 : kw = "VOLUME"
    · rw [if_pos h10] at h
      try dsimp only at h
      first
        | (split at h <;> (try split at h) <;> simp_all)
        | simp at h
    rw [if_neg h10] at h
    by_cases h11 : kw = "CMD"
    · rw [if_pos h11] at h
      try dsimp only at h
      first
        | (split at h <;> (try split at h) <;> simp_all)
        | simp at h
    rw [if_neg h11] at h
    by_cases h12 : kw = "ENTRYPOINT"
    · rw [if_pos h12] at h
      try dsimp only at h
      first
        | (split at h <;> (try split at h) <;> simp_all)
        | simp at h
    rw [if_neg h12] at h
    by_cases h13 : kw = "LABEL"
    · rw [if_pos h13] at h
      try dsimp only at h
      first
        | (split at h <;> (try split at h) <;> simp_all)
        | simp at h
    rw [if_neg h13] at h
    by_cases h14 : kw = "ARG"
    · rw [if_pos h14] at h
      try dsimp only at h
      first
        | (split at h <;> (try split at h) <;> simp_all)
        | simp at h
    rw [if_neg h14] at h
    by_cases h15 : kw = "STOPSIGNAL"
    · rw [if_pos h15] at h
      try dsimp only at h
      first
        | (split at h <;> (try split at h) <;> simp_all)
        | simp at h
    rw [if_neg h15] at h
    by_cases h16 : kw = "SHELL"
    · rw [if_pos h16] at h
      try dsimp only at h
      first
        | (split at h <;> (try split at h) <;> simp_all)
        | simp at h
    rw [if_neg h16] at h
    simp at h

theorem parseInstruction_from_keyword (ba : List (String × String)) (l : String)
    (s : String) (h : parseInstruction ba l = .ok (.From s)) :
    instrKeyword ba l = "FROM" :=
  parseInstructionKw_from _ _ s h

theorem parseLines_append_skip (ba : List (String × String)) (pre : List String)
    (ls : List String)
    (hpre : ∀ l ∈ pre,
      (RStr.isEmptyStr (RStr.trim l) || RStr.startsWith (RStr.trim l) "#") = true) :
    parseLines ba (pre ++ ls) = parseLines ba ls := by
  induction pre with
  | nil => rfl
  | cons a as ih =>
    have ha := hpre a (by simp)
    simp only [List.cons_append, parseLines]
    rw [if_pos ha]
    exact ih (fun x hx => hpre x (by simp [hx]))

/-- C9 counterexample: the Dockerfile consisting of the single line
`RUN echo hi \` has a non-blank, non-comment first line that is not a `FROM`
instruction, yet the parser accepts it (the line-continuation branch drops
the line before the `FROM` check runs). -/
theorem c9_counterexample :
    parseDockerfile [] "RUN echo hi \\" = .ok [] := by decide

/-- C9 (amended): for every Dockerfile whose first non-blank, non-comment
line does not end in a line-continuation backslash and whose keyword (after
build-arg substitution) is not `FROM`, parsing fails with a parse error; and
an empty Dockerfile is accepted. -/
theorem c9_first_line_not_from (ba : List (String × String)) (s : String)
    (pre : List String) (L : String) (rest : List String)
    (hs : rustLines s = pre ++ L :: rest)
    (hpre : ∀ l ∈ pre,
      (RStr.isEmptyStr (RStr.trim l) || RStr.startsWith (RStr.trim l) "#") = true)
    (hblank : (RStr.isEmptyStr (RStr.trim L) ||
        RStr.startsWith (RStr.trim L) "#") = false)
    (hcont : RStr.endsWith (RStr.trim L) "\\" = false)
    (hkw : instrKeyword ba (RStr.trim L) ≠ "FROM") :
    (∃ e, parseDockerfile ba s = .error e) ∧ parseDockerfile ba "" = .ok [] := by
  refine ⟨?_, by rfl⟩
  have hL : parseLines ba (rustLines s) = parseLines ba (L :: rest) := by
    rw [hs]; exact parseLines_append_skip ba pre _ hpre
  have hstep : parseLines ba (L :: rest) =
      match parseInstruction ba (RStr.trim L) with
      | .ok i => (parseLines ba rest).map (fun is => i :: is)
      | .error e => .error e := by
    simp only [parseLines]
    rw [if_neg (by simp [hblank]), if_neg (by simp [hcont])]
  unfold parseDockerfile
  rw [hL, hstep]
  cases hpi : parseInstruction ba (RStr.trim L) with
  | error e => exact ⟨e, rfl⟩
  | ok i =>
    cases hrest : parseLines ba rest with
    | error e => exact ⟨e, rfl⟩
    | ok t =>
      simp only [Except.map]
      cases i
      case From name =>
        exact absurd (parseInstruction_from_keyword ba (RStr.trim L) name hpi) hkw
      all_goals
        exact ⟨.parseError "Dockerfile must start with FROM instruction", rfl⟩

/-- C9 witness: instantiation of `c9_first_line_not_from` on the one-line
Dockerfile `RUN foo`. -/
theorem c9_first_line_not_from_witness :
    (∃ e, parseDockerfile [] "RUN foo" = .error e) ∧
      parseDockerfile [] "" = .ok [] :=
  c9_first_line_not_from [] "RUN foo" [] "RUN foo" [] (by decide)
    (by intro l hl; simp at hl) (by decide) (by decide) (by decide)

theorem mapGet_mapErase {α : Type} (l : List (String × α)) (k : String) :
    mapGet (mapErase l k) k = none := by
  induction l with
  | nil => rfl
  | cons p rest ih =>
    by_cases h : p.1 = k
    · simpa [mapErase, List.filter_cons, h] using ih
    · simpa [mapErase, List.filter_cons, h, mapGet] using ih

theorem storeDeleteContainerStep_spec (env : Env) (m3 : Manager) (id : String) :
    (storeDeleteContainerStep env m3 id).2.containers = m3.containers ∧
      ((storeDeleteContainerStep env m3 id).1 = .ok () ↔
        (m3.store = none ∨ env.storeDeleteContainer = .ok ())) ∧
      (∀ e, (storeDeleteContainerStep env m3 id).1 = .error e →
        env.storeDeleteContainer = .error e) := by
  cases hs : m3.store with
  | none =>
    cases he : env.storeDeleteContainer <;>
      simp [storeDeleteContainerStep, hs, he]
  | some st =>
    cases he : env.storeDeleteContainer <;>
      simp [storeDeleteContainerStep, hs, he]

theorem stopJail_preserves (env : Env) (m : Manager) (name : String) :
    (Manager.stopJail env m name).2.containers = m.containers ∧
      (Manager.stopJail env m name).2.store = m.store := by
  unfold Manager.stopJail
  cases mapGet m.jails name <;> exact ⟨rfl, rfl⟩

theorem deleteJailRow_preserves (env : Env) (m : Manager) (name : String) :
    (deleteJailRow env m name).containers = m.containers ∧
      ((deleteJailRow env m name).store = none ↔ m.store = none) := by
  cases hs : m.store with
  | none => cases hd : env.storeDeleteJail <;> simp [deleteJailRow, hs, hd]
  | some st => cases hd : env.storeDeleteJail <;> simp [deleteJailRow, hs, hd]

theorem removeJail_preserves (env : Env) (m : Manager) (name : String) :
    (Manager.removeJail env m name).2.containers = m.containers ∧
      ((Manager.removeJail env m name).2.store = none ↔ m.store = none) := by
  cases hj : mapGet m.jails name with
  | none => simp [Manager.removeJail, hj]
  | some j =>
    cases hd : Jail.destroy env j with
    | error e => simp [Manager.removeJail, hj, hd]
    | ok u =>
      have h := deleteJailRow_preserves env
        { m with jails := mapErase m.jails name } name
      simp only [Manager.removeJail, hj, hd]
      exact h

/-- C10: `JailManager::remove_container` removes the container from the
in-memory map as soon as it is found, whatever the outcomes of stopping its
jail, destroying the jail, or destroying the zfs dataset; the call errors
exactly when a store is configured and the store delete fails, and the
returned error is that store error. -/
theorem c10_remove_container (env : Env) (m : Manager) (id : String)
    (hfound : (mapGet m.containers id).isSome) :
    mapGet (Manager.removeContainer env m id).2.containers id = none ∧
      ((Manager.removeContainer env m id).1 = .ok () ↔
        (m.store = none ∨ env.storeDeleteContainer = .ok ())) ∧
      (∀ e, (Manager.removeContainer env m id).1 = .error e →
        env.storeDeleteContainer = .error e) := by
  obtain ⟨c, hc⟩ := Option.isSome_iff_exists.mp hfound
  unfold Manager.removeContainer
  simp only [hc]
  have hm1c : ({ m with containers := mapErase m.containers id } : Manager).containers
      = mapErase m.containers id := rfl
  have hm1s : ({ m with containers := mapErase m.containers id } : Manager).store
      = m.store := rfl
  have hm2c : (stopIfRunning env { m with containers := mapErase m.containers id } c).containers
      = mapErase m.containers id := by
    unfold stopIfRunning
    by_cases hr : c.state = .running
    · rw [if_pos hr]
      exact (stopJail_preserves env _ c.jailName).1
    · rw [if_neg hr]
  have hm2s : (stopIfRunning env { m with containers := mapErase m.containers id } c).store
      = m.store := by
    unfold stopIfRunning
    by_cases hr : c.state = .running
    · rw [if_pos hr]
      exact (stopJail_preserves env _ c.jailName).2
    · rw [if_neg hr]
  have hm3c : ((Manager.removeJail env
      (stopIfRunning env { m with containers := mapErase m.containers id } c)
      c.jailName).2).containers = mapErase m.containers id := by
    rw [(removeJail_preserves env _ c.jailName).1, hm2c]
  have hm3s : ((Manager.removeJail env
      (stopIfRunning env { m with containers := mapErase m.containers id } c)
      c.jailName).2).store = none ↔ m.store = none := by
    rw [(removeJail_preserves env _ c.jailName).2, hm2s]
  have key := storeDeleteContainerStep_spec env
    ((Manager.removeJail env
      (stopIfRunning env { m with containers := mapErase m.containers id } c)
      c.jailName).2) id
  refine ⟨?_, ?_, ?_⟩
  · rw [key.1, hm3c]
    exact mapGet_mapErase m.containers id
  · rw [key.2.1, hm3s]
  · exact key.2.2

/-- C10 witness: a concrete removal where the jail stop, jail destroy and zfs
destroy all fail but the store delete succeeds: the call succeeds and the
container entry is gone. -/
theorem c10_remove_container_witness :
    mapGet (Manager.removeContainer
        ⟨false, .error (.stopFailed "fail"), .error "fail",
          .error (.databaseError "fail"), .ok ()⟩
        ⟨[], [("aaaa1111", containerNamedWeb)], some ⟨[], ["aaaa1111"]⟩⟩
        "aaaa1111").2.containers "aaaa1111" = none ∧
      ((Manager.removeContainer
        ⟨false, .error (.stopFailed "fail"), .error "fail",
          .error (.databaseError "fail"), .ok ()⟩
        ⟨[], [("aaaa1111", containerNamedWeb)], some ⟨[], ["aaaa1111"]⟩⟩
        "aaaa1111").1 = .ok () ↔
        ((⟨[], [("aaaa1111", containerNamedWeb)], some ⟨[], ["aaaa1111"]⟩⟩ : Manager).store = none ∨
          (⟨false, .error (.stopFailed "fail"), .error "fail",
            .error (.databaseError "fail"), .ok ()⟩ : Env).storeDeleteContainer = .ok ())) ∧
      (∀ e, (Manager.removeContainer
        ⟨false, .error (.stopFailed "fail"), .error "fail",
          .error (.databaseError "fail"), .ok ()⟩
        ⟨[], [("aaaa1111", containerNamedWeb)], some ⟨[], ["aaaa1111"]⟩⟩
        "aaaa1111").1 = .error e →
        (⟨false, .error (.stopFailed "fail"), .error "fail",
          .error (.databaseError "fail"), .ok ()⟩ : Env).storeDeleteContainer = .error e) :=
  c10_remove_container
    ⟨false, .error (.stopFailed "fail"), .error "fail",
      .error (.databaseError "fail"), .ok ()⟩
    ⟨[], [("aaaa1111", containerNamedWeb)], some ⟨[], ["aaaa1111"]⟩⟩
    "aaaa1111" (by decide)

/-- Test for the `DeleteImage` endpoint among parse results. -/
def isDeleteImageResult : Except ApiError Endpoint → Bool
  | .ok (.deleteImage _) => true
  | _ => false

/-- C2: `parse_endpoint` maps `DELETE images/abc123` to `Endpoint::Image`
and never produces `Endpoint::DeleteImage` for any request (last conjunct),
so the `(Delete, DeleteImage)` arm of `handle_request` — the only caller of
`delete_image` — is dead, and the request falls through to the `_` fallback,
a 400 method/endpoint-mismatch reply; no state is touched. -/
theorem c2_delete_image_unroutable :
    parseEndpoint .delete "images/abc123" = .ok (.image "abc123") ∧
      dispatch .delete (.image "abc123") = .mismatch ∧
      (mismatchResponse .delete "images/abc123").status = 400 ∧
      ∀ (mth : Method) (e : String),
        isDeleteImageResult (parseEndpoint mth e) = false := by
  refine ⟨by decide, rfl, rfl, ?_⟩
  intro mth e
  unfold parseEndpoint
  rcases hL : RStr.splitCh '/' e with _ | ⟨a, _ | ⟨b, _ | ⟨c, _ | ⟨d, _ | ⟨e5, rest⟩⟩⟩⟩⟩ <;>
    simp only [hL] <;>
    first
      | (split_ifs <;> rfl)
      | rfl

/-- C3 counterexample: the string `web` is the exact name of one container
and an id-prefix of another; `GET containers/web` resolves to the id-prefix
match, not the exact-name match. -/
theorem c3_counterexample :
    getContainerH managerTwoContainers "web" =
      Response.success (.containerInfo
        ⟨"webzzzz1", none, "img1", "created", none, "no", 0, none⟩) ∧
      containerNamedWeb.name = some "web" ∧
      RStr.startsWith containerWebIdPre.id "web" = true ∧
      containerNamedWeb ∈ Manager.listContainers managerTwoContainers := by
  refine ⟨by decide, by decide, by decide, by decide⟩

/-- C3 (amended): the container handlers resolve an `{id}` segment as exact
id first, then id-prefix, then exact name: when the string is no container's
exact id but an id-prefix of some container, the first id-prefix match wins
even when another container carries the string as its exact name. -/
theorem c3_resolution_order (m : Manager) (s : String) (c2 : Container)
    (hid : Manager.getContainer m s = none)
    (hpre : Manager.getContainerByPrefix m s = some c2)
    (hname : ∃ c1 ∈ Manager.listContainers m, c1.name = some s) :
    getContainerH m s = Response.success (.containerInfo
      ⟨c2.id, c2.name, c2.imageId, c2.state.asStr, c2.ip,
        c2.restartPolicy.asStr, c2.createdAt, c2.startedAt⟩) := by
  unfold getContainerH
  simp [hid, hpre, Option.orElse]

/-- C3 witness: instantiation of `c3_resolution_order` on the two-container
manager. -/
theorem c3_resolution_order_witness :
    getContainerH managerTwoContainers "web" =
      Response.success (.containerInfo
        ⟨containerWebIdPre.id, containerWebIdPre.name,
          containerWebIdPre.imageId, containerWebIdPre.state.asStr,
          containerWebIdPre.ip, containerWebIdPre.restartPolicy.asStr,
          containerWebIdPre.createdAt, containerWebIdPre.startedAt⟩) :=
  c3_resolution_order managerTwoContainers "web" containerWebIdPre
    (by decide) (by decide) ⟨containerNamedWeb, by decide, by decide⟩

/-- C4: a successful `POST jails` never writes the store: on the empty
manager with an (empty) store configured, creating jail `a` answers 201 and
inserts into the in-memory map, while the store still holds no row at all. -/
theorem c4_create_jail_never_persists :
    (createJailH ⟨[], [], some ⟨[], []⟩⟩ ⟨"a", none, none⟩).1.status = 201 ∧
      (createJailH ⟨[], [], some ⟨[], []⟩⟩ ⟨"a", none, none⟩).2.store =
        some ⟨[], []⟩ ∧
      (Manager.getJail (createJailH ⟨[], [], some ⟨[], []⟩⟩
        ⟨"a", none, none⟩).2 "a").isSome = true := by decide

/-- C8 counterexample: the name `café` contains a character outside
`[A-Za-z0-9_-]` (ASCII), yet `POST jails` answers 201, because the
validation uses Unicode `char::is_alphanumeric`, which accepts `é`. -/
theorem c8_counterexample :
    (createJailH ⟨[], [], none⟩ ⟨"café", none, none⟩).1.status = 201 ∧
      "café".data.all (fun ch => ch.isAlphanum || ch = '_' || ch = '-') = false := by
  refine ⟨by decide, by decide⟩

/-- C8 (amended): jail creation rejects with 400 any empty name and any name
containing a character that is neither Unicode-alphanumeric (per
`char::is_alphanumeric`) nor `_` nor `-` — in particular space, `!` and `.`
— leaving the manager untouched; but non-ASCII alphanumerics are accepted,
so the ASCII regex of the claim does not hold.  (Names are restricted to the
Basic Latin and Latin-1 blocks on which the classifier model is exact.) -/
theorem c8_name_validation (m : Manager) (req : CreateJailRequest)
    (hmodel : ∀ ch ∈ req.name.data, ch.toNat ≤ 0xFF)
    (hbad : req.name = "" ∨ ∃ ch ∈ req.name.data,
      rustIsAlphanumeric ch = false ∧ ch ≠ '_' ∧ ch ≠ '-') :
    (createJailH m req).1.status = 400 ∧ (createJailH m req).2 = m := by
  have hv : ∃ msg, req.validate = .error (ApiError.badRequest msg) := by
    rcases hbad with hempty | ⟨ch, hch, hca, hcu, hcd⟩
    · refine ⟨"Jail name cannot be empty", ?_⟩
      unfold CreateJailRequest.validate
      rw [if_pos (by rw [hempty]; rfl)]
    · have hne : RStr.isEmptyStr req.name = false := by
        unfold RStr.isEmptyStr
        cases hd : req.name.data with
        | nil => rw [hd] at hch; exact absurd hch (List.not_mem_nil ch)
        | cons x xs => rfl
      have hallf : jailNameOk req.name = false := by
        unfold jailNameOk
        by_contra hne2
        have htrue : req.name.data.all
            (fun ch => rustIsAlphanumeric ch || ch = '_' || ch = '-') = true := by
          cases hb : req.name.data.all
              (fun ch => rustIsAlphanumeric ch || ch = '_' || ch = '-') with
          | true => rfl
          | false => exact absurd hb hne2
        have := List.all_eq_true.mp htrue ch hch
        simp [hca, hcu, hcd] at this
      refine ⟨"Invalid jail name", ?_⟩
      unfold CreateJailRequest.validate
      rw [if_neg (by simp [hne]), if_pos (by simp [hallf])]
  obtain ⟨msg, hmsg⟩ := hv
  unfold createJailH
  rw [hmsg]
  exact ⟨rfl, rfl⟩

/-- C8 witness: instantiation of `c8_name_validation` on the name
`bad name` (contains a space): 400 and no state change. -/
theorem c8_name_validation_witness :
    (createJailH ⟨[], [], none⟩ ⟨"bad name", none, none⟩).1.status = 400 ∧
      (createJailH ⟨[], [], none⟩ ⟨"bad name", none, none⟩).2 =
        ⟨[], [], none⟩ :=
  c8_name_validation ⟨[], [], none⟩ ⟨"bad name", none, none⟩ (by decide)
    (Or.inr ⟨' ', by decide, by decide, by decide, by decide⟩)

/-- C5 counterexample: one connection carrying two unparsable frames gets
two replies — the loop continues after the first reply instead of breaking
(the handler argument is never consulted on this trace). -/
theorem c5_counterexample :
    connLoop (fun (_ : Request) (st : Unit) => (invalidRequestResponse, st))
        [.invalid, .invalid] () =
      ([invalidRequestResponse, invalidRequestResponse], true, ()) ∧
      (connLoop (fun (_ : Request) (st : Unit) => (invalidRequestResponse, st))
        [.invalid, .invalid] ()).1.length = 2 := by
  exact ⟨rfl, rfl⟩

/-- C5 (amended): for every request handler and every frame sequence without
a decode error, the connection loop sends exactly one reply per frame and
ends only when the client closes — it never breaks after the first reply. -/
theorem c5_loop_reply_per_frame {σ : Type} (handle : Request → σ → Response × σ) :
    ∀ (frames : List Incoming) (st : σ), Incoming.decodeFailure ∉ frames →
      (connLoop handle frames st).1.length = frames.length ∧
        (connLoop handle frames st).2.1 = true := by
  intro frames
  induction frames with
  | nil => intro st _; exact ⟨rfl, rfl⟩
  | cons f rest ih =>
    intro st hok
    have hrest : Incoming.decodeFailure ∉ rest :=
      fun h => hok (List.mem_cons_of_mem _ h)
    have hf : f ≠ .decodeFailure :=
      fun h => hok (by rw [h]; exact List.mem_cons_self _ _)
    cases f with
    | request r =>
      have h2 := ih (handle r st).2 hrest
      simp only [connLoop, List.length_cons]
      exact ⟨by rw [h2.1], h2.2⟩
    | invalid =>
      have h2 := ih st hrest
      simp only [connLoop, List.length_cons]
      exact ⟨by rw [h2.1], h2.2⟩
    | decodeFailure => exact absurd rfl hf

/-- C5 witness: instantiation of `c5_loop_reply_per_frame` on a two-frame
trace (a well-formed request, then an unparsable one). -/
theorem c5_loop_reply_per_frame_witness :
    (connLoop (fun (_ : Request) (st : Unit) => (invalidRequestResponse, st))
        [Incoming.request ⟨.get, "jails", .null⟩, Incoming.invalid] ()).1.length = 2 ∧
      (connLoop (fun (_ : Request) (st : Unit) => (invalidRequestResponse, st))
        [Incoming.request ⟨.get, "jails", .null⟩, Incoming.invalid] ()).2.1 = true :=
  c5_loop_reply_per_frame _ [.request ⟨.get, "jails", .null⟩, .invalid] ()
    (by decide)

end Kawakaze
